import Mathlib

set_option linter.unusedSectionVars false

/-!
# Verification of the trustfall interpreter core against its specification

This file gives a shallow embedding, in Lean 4, of the parts of the trustfall
query engine that the specification's claims are about:

* the value model (`FieldValue`, `TransparentValue`, JSON-number conversion)
  from `trustfall_core/src/ir/value.rs`;
* the optimization-hints machinery (`static_field_value`,
  `dynamic_field_value`, `DynamicallyResolvedValue::resolve`) from
  `trustfall_core/src/interpreter/hints/mod.rs`;
* the trace-replay adapter (`TraceReaderAdapter` and its iterator types) from
  `trustfall_core/src/interpreter/replay.rs`, together with a model of the
  trace recorder and of the interpreter's interaction pattern, which are
  described by the specification but whose source is not part of the sampled
  files.

Rust machine integers are modelled as `Int`/`Nat` with explicit range checks
where the code performs them.  Finite `f64` payloads are modelled as rationals:
the code asserts finiteness at every construction and comparison of `Float64`
values, and every finite double is an exact rational, so equality of finite
doubles coincides with equality of the corresponding rationals.  Panicking
code paths (`assert!`, `unwrap`, `unreachable!`) are modelled with `Except`.
-/

namespace Trustfall

/-- The tagged-union field value type, from `FieldValue` in `ir/value.rs`.
`DateTime<Utc>` payloads are modelled by their (totally ordered, decidably
equal) timestamp as an `Int`; finite `f64` payloads are modelled as `Rat`. -/
inductive FieldValue where
  | null : FieldValue
  | int64 : Int → FieldValue
  | uint64 : Nat → FieldValue
  | float64 : Rat → FieldValue
  | string : String → FieldValue
  | boolean : Bool → FieldValue
  | dateTimeUtc : Int → FieldValue
  | enum : String → FieldValue
  | list : List FieldValue → FieldValue

/-- The untagged-serialization twin of `FieldValue`: `TransparentValue` in
`ir/value.rs`.  Structurally identical; only the serde representation
differs in the source. -/
inductive TransparentValue where
  | null : TransparentValue
  | int64 : Int → TransparentValue
  | uint64 : Nat → TransparentValue
  | float64 : Rat → TransparentValue
  | string : String → TransparentValue
  | boolean : Bool → TransparentValue
  | dateTimeUtc : Int → TransparentValue
  | enum : String → TransparentValue
  | list : List TransparentValue → TransparentValue

mutual

/-- `impl From<FieldValue> for TransparentValue` (`ir/value.rs` lines 52-68):
each variant maps to the same-named variant, lists convert element-wise. -/
def transparentOfField : FieldValue → TransparentValue
  | .null => .null
  | .int64 x => .int64 x
  | .uint64 x => .uint64 x
  | .float64 x => .float64 x
  | .string x => .string x
  | .boolean x => .boolean x
  | .dateTimeUtc x => .dateTimeUtc x
  | .enum x => .enum x
  | .list x => .list (transparentOfFieldList x)

/-- The element-wise conversion `x.into_iter().map(|v| v.into()).collect()`
used in the `List` arm of `From<FieldValue> for TransparentValue`. -/
def transparentOfFieldList : List FieldValue → List TransparentValue
  | [] => []
  | v :: vs => transparentOfField v :: transparentOfFieldList vs

end

mutual

/-- `impl From<TransparentValue> for FieldValue` (`ir/value.rs` lines 70-86). -/
def fieldOfTransparent : TransparentValue → FieldValue
  | .null => .null
  | .int64 x => .int64 x
  | .uint64 x => .uint64 x
  | .float64 x => .float64 x
  | .string x => .string x
  | .boolean x => .boolean x
  | .dateTimeUtc x => .dateTimeUtc x
  | .enum x => .enum x
  | .list x => .list (fieldOfTransparentList x)

/-- The element-wise conversion in the `List` arm of
`From<TransparentValue> for FieldValue`. -/
def fieldOfTransparentList : List TransparentValue → List FieldValue
  | [] => []
  | v :: vs => fieldOfTransparent v :: fieldOfTransparentList vs

end

/-- The Rust `core::mem::discriminant` of a `FieldValue`, identified with the
variant's index in declaration order. -/
def FieldValue.discriminant : FieldValue → Nat
  | .null => 0
  | .int64 _ => 1
  | .uint64 _ => 2
  | .float64 _ => 3
  | .string _ => 4
  | .boolean _ => 5
  | .dateTimeUtc _ => 6
  | .enum _ => 7
  | .list _ => 8

mutual

/-- `impl PartialEq for FieldValue` (`ir/value.rs` lines 156-174).  Same-variant
payloads are compared; every other pair of values falls to the catch-all arm
comparing discriminants.  The finiteness assertion on `Float64` payloads is
vacuous in this model because every `Rat` models a finite double. -/
def FieldValue.eqFn : FieldValue → FieldValue → Bool
  | .uint64 l0, .uint64 r0 => l0 == r0
  | .int64 l0, .int64 r0 => l0 == r0
  | .float64 l0, .float64 r0 => l0 == r0
  | .string l0, .string r0 => l0 == r0
  | .boolean l0, .boolean r0 => l0 == r0
  | .dateTimeUtc l0, .dateTimeUtc r0 => l0 == r0
  | .list l0, .list r0 => FieldValue.listEqFn l0 r0
  | .enum l0, .enum r0 => l0 == r0
  | l, r => l.discriminant == r.discriminant

/-- Element-wise equality of `Vec<FieldValue>` payloads (Rust compares list
payloads with `Vec::eq`: equal lengths and pairwise `eq`). -/
def FieldValue.listEqFn : List FieldValue → List FieldValue → Bool
  | [], [] => true
  | l :: ls, r :: rs => FieldValue.eqFn l r && FieldValue.listEqFn ls rs
  | _, _ => false

end

/-- Model of `serde_json`-style JSON numbers (`async_graphql_value::Number`),
as used by `convert_number_to_field_value`: a number is stored either as a
`u64` magnitude (`posInt`), as a negative `i64` (`negInt`), or as a finite
double (`float`, modelled as `Rat`). -/
inductive Number where
  | posInt : Nat → Number
  | negInt : Int → Number
  | float : Rat → Number

/-- `Number::as_i64`: succeeds exactly when the number is stored in an integer
representation that fits in `i64` — a `posInt` not exceeding `i64::MAX`, or a
`negInt` (always stored as an `i64`).  Floats are never converted. -/
def Number.asI64 : Number → Option Int
  | .posInt u => if u ≤ 2 ^ 63 - 1 then some (u : Int) else none
  | .negInt i => some i
  | .float _ => none

/-- `Number::as_u64`: succeeds exactly for `posInt` (the stored `u64`). -/
def Number.asU64 : Number → Option Nat
  | .posInt u => some u
  | .negInt _ => none
  | .float _ => none

/-- `Number::as_f64`: always succeeds.  For the `float` representation it
returns the stored double exactly; for integer representations it returns the
cast, which `convert_number_to_field_value` never reaches — we model that
unreached cast as the exact rational. -/
def Number.asF64 : Number → Option Rat
  | .posInt u => some (u : Rat)
  | .negInt i => some (i : Rat)
  | .float f => some f

/-- `convert_number_to_field_value` (`ir/value.rs` lines 319-332): try `as_i64`
first, then `as_u64`, then `as_f64`; the final `unreachable!()` is an error. -/
def convertNumberToFieldValue (n : Number) : Except String FieldValue :=
  match n.asI64 with
  | some i => .ok (.int64 i)
  | none =>
    match n.asU64 with
    | some u => .ok (.uint64 u)
    | none =>
      match n.asF64 with
      | some f => .ok (.float64 f)
      | none => .error "unreachable"

/-! ## Optimization hints (`interpreter/hints/mod.rs`) -/

/-- Modelled from the spec: the `LocalField` left-hand side of a filter on
the current vertex (the IR module defining it is not among the sampled
sources).  Only its name participates in the modelled operations; the
field's schema type is not consulted by `static_field_value` or
`dynamic_field_value`. -/
structure LocalField where
  fieldName : String
  deriving DecidableEq

/-- Modelled from the spec: a `ContextField` — the reference to a
`@tag`-captured property of an earlier vertex (its defining IR module is not
among the sampled sources).  `vertexId` is the source `Vid`; `nullable` is
`field_type.nullable`. -/
structure ContextField where
  vertexId : Nat
  fieldName : String
  nullable : Bool
  deriving DecidableEq

/-- Modelled from the spec: `FieldRef` (its defining IR module is not among
the sampled sources) — a tag either references a context field or a
fold-specific field (the latter is a `TODO` in the hints code and never
matched there). -/
inductive FieldRef where
  | contextField : ContextField → FieldRef
  | foldSpecificField : FieldRef
  deriving DecidableEq

/-- Modelled from the spec: `Argument`, the right-hand side of a filter
operation (its defining IR module is not among the sampled sources) — a
query variable (by name) or a `@tag` reference. -/
inductive Argument where
  | Variable : String → Argument
  | Tag : FieldRef → Argument
  deriving DecidableEq

/-- Modelled from the spec: the filter `Operation<LeftT, RightT>` enum of the
IR (its defining module is not among the sampled sources; the spec lists the
supported operators and the hints code pattern-matches `IsNull`, `IsNotNull`,
`Equals` and `OneOf`, treating every other operator with a catch-all). -/
inductive Operation (L R : Type) where
  | isNull : L → Operation L R
  | isNotNull : L → Operation L R
  | equals : L → R → Operation L R
  | notEquals : L → R → Operation L R
  | lessThan : L → R → Operation L R
  | lessThanOrEqual : L → R → Operation L R
  | greaterThan : L → R → Operation L R
  | greaterThanOrEqual : L → R → Operation L R
  | contains : L → R → Operation L R
  | notContains : L → R → Operation L R
  | hasPrefixOp : L → R → Operation L R
  | hasSuffix : L → R → Operation L R
  | hasSubstring : L → R → Operation L R
  | oneOf : L → R → Operation L R
  | notOneOf : L → R → Operation L R
  | regex : L → R → Operation L R
  | notRegex : L → R → Operation L R
  deriving DecidableEq

/-- Modelled from the spec: `IRVertex { vid, type_name, coerced_from_type,
filters }` as used by the hints code (its defining IR module is not among
the sampled sources). -/
structure IRVertex where
  vid : Nat
  typeName : String
  coercedFromType : Option String
  filters : List (Operation LocalField Argument)

/-- `matches!(op, Operation::IsNull(..))`, the predicate applied across the
vertex's filters at the top of `static_field_value`. -/
def Operation.matchesIsNull : Operation L R → Bool
  | .isNull _ => true
  | _ => false

/-- `matches!(op, Operation::IsNotNull(..))`. -/
def Operation.matchesIsNotNull : Operation L R → Bool
  | .isNotNull _ => true
  | _ => false

/-- Modelled from the spec: the candidate-value lattice of
`hints/candidates.rs` (whose source is not among the sampled files) —
`{Impossible, Single, Multiple, Range, All}`.  The `Range` variant is
omitted: `static_field_range` is `todo!()` in the source and no modelled
operation constructs a range. -/
inductive CandidateValue (α : Type) where
  | impossible : CandidateValue α
  | single : α → CandidateValue α
  | multiple : List α → CandidateValue α
  | all : CandidateValue α

/-- Modelled from the spec: canonical form of an intersection result — an
empty set is `impossible` and a singleton is `single`. -/
def CandidateValue.ofList [BEq α] : List α → CandidateValue α
  | [] => .impossible
  | [x] => .single x
  | xs => .multiple xs

/-- Modelled from the spec: `CandidateValue::merge` intersects the sets of
values the two candidates describe (`merge(A, B) ⊆ A` and `⊆ B`,
`merge(Impossible, _) = Impossible`, `merge(All, X) = X`).  Element equality
is the Rust `PartialEq` of the value type. -/
def CandidateValue.merge [BEq α] : CandidateValue α → CandidateValue α → CandidateValue α
  | .impossible, _ => .impossible
  | _, .impossible => .impossible
  | .all, other => other
  | c, .all => c
  | .single a, .single b => if a == b then .single a else .impossible
  | .single a, .multiple bs => if bs.contains a then .single a else .impossible
  | .multiple xs, .single b => if xs.contains b then .single b else .impossible
  | .multiple xs, .multiple bs => .ofList (xs.filter (bs.contains ·))

instance : BEq FieldValue := ⟨FieldValue.eqFn⟩

/-- `FieldValue::as_vec` specialized the way `static_field_value` calls it
(`as_vec(AsRef::as_ref)`): succeeds exactly on `List`, yielding the
elements. -/
def FieldValue.asVec : FieldValue → Option (List FieldValue)
  | .list l => some l
  | _ => none

/-- The body of the `for filter_operation in &vertex.filters` loop of
`static_field_value` (`hints/mod.rs` lines 61-86): `Equals` with a variable
RHS merges `Single(value)` into the candidate, `OneOf` with a variable RHS
merges `Multiple(values)` (panicking — an error here — when the variable's
value is not a list); every other operation leaves the candidate unchanged.
Note that the left-hand side of the operation is matched with a wildcard:
the loop never consults which field the filter constrains. -/
def staticFieldValueStep (arguments : String → FieldValue)
    (candidate : Option (CandidateValue FieldValue))
    (filterOperation : Operation LocalField Argument) :
    Except String (Option (CandidateValue FieldValue)) :=
  match filterOperation with
  | .equals _ (.Variable var) =>
    let value := arguments var
    match candidate with
    | some c => .ok (some (c.merge (.single value)))
    | none => .ok (some (.single value))
  | .oneOf _ (.Variable var) =>
    match (arguments var).asVec with
    | some values =>
      match candidate with
      | some c => .ok (some (c.merge (.multiple values)))
      | none => .ok (some (.multiple values))
    | none => .error "OneOf operation using a non-vec FieldValue"
  | _ => .ok candidate

/-- `VertexInfo::static_field_value` (`hints/mod.rs` lines 37-89).  The
`fieldName` parameter is accepted and — exactly as in the source, whose
module carries `#![allow(unused_variables)]` — never used: the `is_null` /
`is_not_null` scan and the filter loop run over all of the vertex's filters
regardless of which field each one constrains.  The `arguments` map is
modelled as a total function: the source indexes
`arguments[&var.variable_name]`, whose presence IR validation guarantees. -/
def staticFieldValue (info : IRVertex) (arguments : String → FieldValue)
    (_fieldName : String) : Except String (Option (CandidateValue FieldValue)) :=
  let isNullPresent := info.filters.any Operation.matchesIsNull
  let isNotNullPresent := info.filters.any Operation.matchesIsNotNull
  if isNullPresent && isNotNullPresent then
    .ok (some .impossible)
  else
    let init : Option (CandidateValue FieldValue) :=
      if isNullPresent then some (.single .null) else none
    info.filters.foldlM (staticFieldValueStep arguments) init

/-- The handle returned by `dynamic_field_value`: the fields of
`DynamicallyResolvedValue` that its `resolve` method consults.  The `query`
and `resolve_on_component` handles of the Rust struct are clones of ambient
query state and are not modelled. -/
structure DynamicallyResolvedValue where
  vid : Nat
  contextField : ContextField
  isMultiple : Bool
  deriving DecidableEq

/-- The loop body of `NeighboringQueryInfo::dynamic_field_value`
(`hints/mod.rs` lines 382-440): an `Equals` or `OneOf` filter whose RHS is a
`@tag` of a context field with source Vid at or before the scope's starting
Vid yields a handle (`is_multiple` true exactly for `OneOf`); any other
filter — including a tag of a later Vid, whose value is not yet known at
query-evaluation time — yields nothing.  The `fieldName` parameter of the
enclosing method is unused exactly as in the source. -/
def neighboringDynamicFieldValueStep (vertexVid startingVertex : Nat)
    (filterOperation : Operation LocalField Argument) :
    Option DynamicallyResolvedValue :=
  match filterOperation with
  | .equals _ (.Tag (.contextField cf)) =>
    if cf.vertexId ≤ startingVertex then
      some ⟨vertexVid, cf, false⟩
    else
      none
  | .oneOf _ (.Tag (.contextField cf)) =>
    if cf.vertexId ≤ startingVertex then
      some ⟨vertexVid, cf, true⟩
    else
      none
  | _ => none

/-- The filter scan itself: the first filter for which the step yields a
handle wins; filters whose step yields `none` are skipped, exactly like the
`continue`-on-no-return control flow of the source loop. -/
def neighboringDynamicFieldValue (vertex : IRVertex) (startingVertex : Nat)
    (_fieldName : String) : Option DynamicallyResolvedValue :=
  vertex.filters.findSome? (neighboringDynamicFieldValueStep vertex.vid startingVertex)

/-- Modelled from the spec: the slice of the per-row execution state
(`DataContext`, defined in the interpreter module that is not among the
sampled sources) consulted by `DynamicallyResolvedValue::resolve` —
`ctx.tokens[&vid]` is the vertex binding recorded for `vid` (`None` under an
`@optional` scope that did not exist for the row).  The lookup is total here
because the engine has bound every Vid the resolved tag can mention. -/
structure DataContext (V : Type) where
  tokens : Nat → Option V

/-- The body of the closures inside `DynamicallyResolvedValue::resolve`
(`hints/mod.rs` lines 509-562), applied to one `(context, value)` pair.
In `is_multiple` mode: a `List` becomes `Multiple`; `Null` becomes `All`
when the tag's source vertex binding is absent and `Impossible` otherwise;
any other value is the `panic!` arm.  In single-valued mode: `Null` becomes
`All` when the binding is absent and `Single(Null)` otherwise; any other
value becomes `Single(value)`.  (The `debug_assert!` on nullability is
debug-only and not modelled.) -/
def resolveCandidateValue (isMultiple : Bool) (contextFieldVid : Nat)
    (ctx : DataContext V) (value : FieldValue) :
    Except String (CandidateValue FieldValue) :=
  match isMultiple, value with
  | true, .list v => .ok (.multiple v)
  | true, .null =>
    if (ctx.tokens contextFieldVid).isNone then
      .ok .all
    else
      .ok .impossible
  | true, _ => .error "tagged field produced an invalid value"
  | false, .null =>
    if (ctx.tokens contextFieldVid).isNone then
      .ok .all
    else
      .ok (.single .null)
  | false, otherValue => .ok (.single otherValue)

/-- `DynamicallyResolvedValue::resolve` (`hints/mod.rs` lines 489-563).
`computeContextField` models `compute_context_field_with_separate_value`
(modelled from the spec: the engine's shared field-resolution helper yields,
per context and in order, `(context, value)` pairs for the tagged field);
the mapped closure is `resolveCandidateValue`. -/
def DynamicallyResolvedValue.resolve (d : DynamicallyResolvedValue)
    (computeContextField : DataContext V → FieldValue) :
    List (DataContext V) →
    Except String (List (DataContext V × CandidateValue FieldValue))
  | [] => .ok []
  | ctx :: rest =>
    match resolveCandidateValue d.isMultiple d.contextField.vertexId ctx
        (computeContextField ctx) with
    | .ok candidate =>
      match d.resolve computeContextField rest with
      | .ok outcomes => .ok ((ctx, candidate) :: outcomes)
      | .error e => .error e
    | .error e => .error e

/-! ## Trace and replay (`interpreter/replay.rs`)

The trace data model (`trace.rs`) and the interpreter loop (`execution.rs`)
are not among the sampled sources; they are modelled from the spec (§3
"Trace", §4.4 "Trace and Replay").  The replay iterators and the
`TraceReaderAdapter` methods are embedded from `replay.rs`. -/

/-- Modelled from the spec: `FunctionCall` of `trace.rs` (not among the
sampled sources), with the variants `replay.rs` matches — the primitive
invoked by a `Call` op together with the arguments the replay adapter
asserts against. -/
inductive FunctionCall where
  | resolveStartingVertices : Nat → FunctionCall
  | resolveProperty : Nat → String → String → FunctionCall
  | resolveNeighbors : Nat → String → Nat → FunctionCall
  | resolveCoercion : Nat → String → String → FunctionCall
  deriving DecidableEq

/-- Modelled from the spec: `YieldValue` of `trace.rs` (not among the
sampled sources), with the variants `replay.rs` matches.  `V` is the
adapter's vertex type and `C` the context type. -/
inductive YieldValue (V C : Type) where
  | resolveStartingVertices : V → YieldValue V C
  | resolveProperty : C → FieldValue → YieldValue V C
  | resolveNeighborsOuter : C → YieldValue V C
  | resolveNeighborsInner : Nat → V → YieldValue V C
  | resolveCoercion : C → Bool → YieldValue V C

/-- Modelled from the spec: `TraceOpContent` of `trace.rs` (not among the
sampled sources) — the content enum of a trace operation.  `R` is the
output-row type. -/
inductive TraceOpContent (V C R : Type) where
  | call : FunctionCall → TraceOpContent V C R
  | advanceInputIterator : TraceOpContent V C R
  | yieldInto : C → TraceOpContent V C R
  | inputIteratorExhausted : TraceOpContent V C R
  | yieldFrom : YieldValue V C → TraceOpContent V C R
  | outputIteratorExhausted : TraceOpContent V C R
  | produceQueryResult : R → TraceOpContent V C R

/-- Modelled from the spec: a `TraceOp` of `trace.rs` (not among the sampled
sources) — `{opid, parent_opid?, content}`.  A trace is the list of its
operations in ascending-opid order (the iteration order of the
`BTreeMap<Opid, TraceOp>` the replay adapter walks). -/
structure TraceOp (V C R : Type) where
  opid : Nat
  parentOpid : Option Nat
  content : TraceOpContent V C R

/-- The distinct panic sites of the replay adapter (`assert!`, `assert_eq!`,
`unwrap`/`expect` and `unreachable!` in `replay.rs`), modelled as errors. -/
inductive ReplayError where
  | traceExhausted : ReplayError
  | parentOpidMismatch : ReplayError
  | unexpectedTraceOp : ReplayError
  | contextMismatch : ReplayError
  | inputIteratorNotExhausted : ReplayError
  | inputIteratorExhaustedEarly : ReplayError
  | inputBatchEmpty : ReplayError
  | inputBatchNotEmpty : ReplayError
  | neighborIndexMismatch : ReplayError
  | callMismatch : ReplayError
  | resultRowMismatch : ReplayError
  deriving DecidableEq

section Replay

variable {V C R : Type} [DecidableEq V] [DecidableEq C] [DecidableEq R]

/-- `TraceReaderStartingVerticesIter::next` (`replay.rs` lines 48-81),
iterated to exhaustion: each op (whose `parent_opid` must equal `p`) is
either a `YieldFrom(ResolveStartingVertices(vertex))`, yielding the vertex,
or `OutputIteratorExhausted`, ending the iterator.  Returns the yielded
vertices and the rest of the trace. -/
def drainStartingVertices (p : Nat) :
    List (TraceOp V C R) → Except ReplayError (List V × List (TraceOp V C R))
  | [] => .error .traceExhausted
  | op :: rest =>
    if op.parentOpid = some p then
      match op.content with
      | .outputIteratorExhausted => .ok ([], rest)
      | .yieldFrom (.resolveStartingVertices vertex) =>
        (drainStartingVertices p rest).map fun (vs, remaining) =>
          (vertex :: vs, remaining)
      | _ => .error .unexpectedTraceOp
    else .error .parentOpidMismatch

mutual

/-- `TraceReaderResolvePropertiesIter::next` (`replay.rs` lines 96-161),
iterated to exhaustion.  The inner loop of `next` — pull one context from
the engine's input iterator upon an `AdvanceInputIterator` op and match it
against the following `YieldInto` / `InputIteratorExhausted` op, queueing
matched contexts in `input_batch` — is split into the mutually recursive
`drainPropertyAdvance`, which handles the op that follows the
`AdvanceInputIterator`.  The loop breaks on any other op: a
`YieldFrom(ResolveProperty(ctx, value))` pops the batch front (which must
equal the recorded context) and yields the pair; `OutputIteratorExhausted`
requires an empty batch and ends the iterator.  Returns the yielded pairs,
the rest of the trace, the contexts the engine never pulled, and the number
of pulls (`contexts.next()` calls — one per `AdvanceInputIterator` op). -/
def drainProperty (p : Nat) :
    List (TraceOp V C R) → List C → List C →
    Except ReplayError
      (List (C × FieldValue) × List (TraceOp V C R) × List C × Nat)
  | [], _, _ => .error .traceExhausted
  | op :: rest, contexts, batch =>
    if op.parentOpid = some p then
      match op.content with
      | .advanceInputIterator => drainPropertyAdvance p rest contexts batch
      | .yieldFrom (.resolveProperty recorded value) =>
        match batch with
        | [] => .error .inputBatchEmpty
        | c :: bs =>
          if recorded = c then
            (drainProperty p rest contexts bs).map
              fun (outs, remaining, leftover, pulls) =>
                ((c, value) :: outs, remaining, leftover, pulls)
          else .error .contextMismatch
      | .outputIteratorExhausted =>
        match batch with
        | [] => .ok ([], rest, contexts, 0)
        | _ :: _ => .error .inputBatchNotEmpty
      | _ => .error .unexpectedTraceOp
    else .error .parentOpidMismatch

/-- The op that follows an `AdvanceInputIterator` in the properties
iterator: `YieldInto(ctx)` requires the pulled context to exist and equal
the recorded one and queues it; `InputIteratorExhausted` requires the pull
to have returned nothing.  Either way the pull counts toward the input
consumption (`pulls + 1`). -/
def drainPropertyAdvance (p : Nat) :
    List (TraceOp V C R) → List C → List C →
    Except ReplayError
      (List (C × FieldValue) × List (TraceOp V C R) × List C × Nat)
  | [], _, _ => .error .traceExhausted
  | op2 :: rest2, contexts, batch =>
    if op2.parentOpid = some p then
      match op2.content, contexts with
      | .yieldInto recorded, c :: cs =>
        if recorded = c then
          (drainProperty p rest2 cs (batch ++ [c])).map
            fun (outs, remaining, leftover, pulls) =>
              (outs, remaining, leftover, pulls + 1)
        else .error .contextMismatch
      | .yieldInto _, [] => .error .inputIteratorExhaustedEarly
      | .inputIteratorExhausted, [] =>
        (drainProperty p rest2 [] batch).map
          fun (outs, remaining, leftover, pulls) =>
            (outs, remaining, leftover, pulls + 1)
      | .inputIteratorExhausted, _ :: _ => .error .inputIteratorNotExhausted
      | _, _ => .error .unexpectedTraceOp
    else .error .parentOpidMismatch

end

mutual

/-- `TraceReaderResolveCoercionIter::next` (`replay.rs` lines 177-244),
iterated to exhaustion; identical to the properties iterator except that the
yields carry `ResolveCoercion(ctx, can_coerce)`. -/
def drainCoercion (p : Nat) :
    List (TraceOp V C R) → List C → List C →
    Except ReplayError
      (List (C × Bool) × List (TraceOp V C R) × List C × Nat)
  | [], _, _ => .error .traceExhausted
  | op :: rest, contexts, batch =>
    if op.parentOpid = some p then
      match op.content with
      | .advanceInputIterator => drainCoercionAdvance p rest contexts batch
      | .yieldFrom (.resolveCoercion recorded canCoerce) =>
        match batch with
        | [] => .error .inputBatchEmpty
        | c :: bs =>
          if recorded = c then
            (drainCoercion p rest contexts bs).map
              fun (outs, remaining, leftover, pulls) =>
                ((c, canCoerce) :: outs, remaining, leftover, pulls)
          else .error .contextMismatch
      | .outputIteratorExhausted =>
        match batch with
        | [] => .ok ([], rest, contexts, 0)
        | _ :: _ => .error .inputBatchNotEmpty
      | _ => .error .unexpectedTraceOp
    else .error .parentOpidMismatch

/-- The op that follows an `AdvanceInputIterator` in the coercion
iterator. -/
def drainCoercionAdvance (p : Nat) :
    List (TraceOp V C R) → List C → List C →
    Except ReplayError
      (List (C × Bool) × List (TraceOp V C R) × List C × Nat)
  | [], _, _ => .error .traceExhausted
  | op2 :: rest2, contexts, batch =>
    if op2.parentOpid = some p then
      match op2.content, contexts with
      | .yieldInto recorded, c :: cs =>
        if recorded = c then
          (drainCoercion p rest2 cs (batch ++ [c])).map
            fun (outs, remaining, leftover, pulls) =>
              (outs, remaining, leftover, pulls + 1)
        else .error .contextMismatch
      | .yieldInto _, [] => .error .inputIteratorExhaustedEarly
      | .inputIteratorExhausted, [] =>
        (drainCoercion p rest2 [] batch).map
          fun (outs, remaining, leftover, pulls) =>
            (outs, remaining, leftover, pulls + 1)
      | .inputIteratorExhausted, _ :: _ => .error .inputIteratorNotExhausted
      | _, _ => .error .unexpectedTraceOp
    else .error .parentOpidMismatch

end

mutual

/-- `TraceReaderResolveNeighborsIter::next` (`replay.rs` lines 259-334),
iterated to exhaustion.  The input handshake is as in the properties
iterator (split into `drainNeighborsAdvance`); a
`YieldFrom(ResolveNeighborsOuter(ctx))` pops the batch front (which must
equal the recorded context) and hands control to the returned lazy neighbor
iterator — a `TraceReaderNeighborIter` whose `parent_iterator_opid` is the
outer yield op's `opid` and whose `next_index` starts at 0 — which the
engine, as the spec's ordering guarantees describe and in the order the
recorder serialized the ops, drains before pulling the next outer item
(`drainNeighborsResume`). -/
def drainNeighbors (p : Nat) :
    List (TraceOp V C R) → List C → List C →
    Except ReplayError
      (List (C × List V) × List (TraceOp V C R) × List C × Nat)
  | [], _, _ => .error .traceExhausted
  | op :: rest, contexts, batch =>
    if op.parentOpid = some p then
      match op.content with
      | .advanceInputIterator => drainNeighborsAdvance p rest contexts batch
      | .yieldFrom (.resolveNeighborsOuter recorded) =>
        match batch with
        | [] => .error .inputBatchEmpty
        | c :: bs =>
          if recorded = c then
            drainNeighborsResume p op.opid 0 rest contexts bs c []
          else .error .contextMismatch
      | .outputIteratorExhausted =>
        match batch with
        | [] => .ok ([], rest, contexts, 0)
        | _ :: _ => .error .inputBatchNotEmpty
      | _ => .error .unexpectedTraceOp
    else .error .parentOpidMismatch

/-- The op that follows an `AdvanceInputIterator` in the neighbors
iterator. -/
def drainNeighborsAdvance (p : Nat) :
    List (TraceOp V C R) → List C → List C →
    Except ReplayError
      (List (C × List V) × List (TraceOp V C R) × List C × Nat)
  | [], _, _ => .error .traceExhausted
  | op2 :: rest2, contexts, batch =>
    if op2.parentOpid = some p then
      match op2.content, contexts with
      | .yieldInto recorded, c :: cs =>
        if recorded = c then
          (drainNeighbors p rest2 cs (batch ++ [c])).map
            fun (outs, remaining, leftover, pulls) =>
              (outs, remaining, leftover, pulls + 1)
        else .error .contextMismatch
      | .yieldInto _, [] => .error .inputIteratorExhaustedEarly
      | .inputIteratorExhausted, [] =>
        (drainNeighbors p rest2 [] batch).map
          fun (outs, remaining, leftover, pulls) =>
            (outs, remaining, leftover, pulls + 1)
      | .inputIteratorExhausted, _ :: _ => .error .inputIteratorNotExhausted
      | _, _ => .error .unexpectedTraceOp
    else .error .parentOpidMismatch

/-- `TraceReaderNeighborIter::next` (`replay.rs` lines 349-384), iterated to
exhaustion, then resuming the outer neighbors iterator: each op (child of
the outer yield op `innerParent`) is either a
`YieldFrom(ResolveNeighborsInner(index, vertex))`, whose `index` must equal
the iterator's `next_index` counter (`idx` here, incremented per yield and
0 at creation) and whose vertex is appended to the collected neighbors
`acc`, or `OutputIteratorExhausted`, upon which the pair of the outer
context `c` and the collected neighbor list is emitted and the outer loop
continues. -/
def drainNeighborsResume (p innerParent idx : Nat) :
    List (TraceOp V C R) → List C → List C → C → List V →
    Except ReplayError
      (List (C × List V) × List (TraceOp V C R) × List C × Nat)
  | [], _, _, _, _ => .error .traceExhausted
  | op :: rest, contexts, batch, c, acc =>
    if op.parentOpid = some innerParent then
      match op.content with
      | .outputIteratorExhausted =>
        (drainNeighbors p rest contexts batch).map
          fun (outs, remaining, leftover, pulls) =>
            ((c, acc) :: outs, remaining, leftover, pulls)
      | .yieldFrom (.resolveNeighborsInner index vertex) =>
        if index = idx then
          drainNeighborsResume p innerParent (idx + 1) rest contexts batch c
            (acc ++ [vertex])
        else .error .neighborIndexMismatch
      | _ => .error .unexpectedTraceOp
    else .error .parentOpidMismatch

end

/-- Modelled from the spec: the part of `QueryInfo` (whose defining module
is not among the sampled sources) that the replay adapter asserts against —
`origin_vid()` and `origin_crossing_eid()`. -/
structure QueryInfoModel where
  originVid : Nat
  originCrossingEid : Option Nat
  deriving DecidableEq

/-- `TraceReaderAdapter::resolve_starting_vertices` (`replay.rs` lines
394-416): the next trace op must be a root op (`parent_opid` is `None`)
whose content is `Call(ResolveStartingVertices(vid))` with `vid` equal to
the query info's origin Vid and no crossing Eid; the returned iterator is
drained from the ops that follow, with the call op's opid as parent. -/
def replayResolveStartingVertices (qi : QueryInfoModel) :
    List (TraceOp V C R) → Except ReplayError (List V × List (TraceOp V C R))
  | [] => .error .traceExhausted
  | op :: rest =>
    if op.parentOpid = none then
      match op.content with
      | .call (.resolveStartingVertices vid) =>
        if vid = qi.originVid ∧ qi.originCrossingEid = none then
          drainStartingVertices op.opid rest
        else .error .callMismatch
      | _ => .error .unexpectedTraceOp
    else .error .callMismatch

/-- `TraceReaderAdapter::resolve_property` (`replay.rs` lines 418-447): the
next trace op must be a root `Call(ResolveProperty(vid, type_name,
property))` matching the invocation's arguments and origin; the returned
iterator is drained with the call op's opid as parent, starting with an
empty input batch. -/
def replayResolveProperty (qi : QueryInfoModel) (typeName propertyName : String) :
    List (TraceOp V C R) → List C →
    Except ReplayError
      (List (C × FieldValue) × List (TraceOp V C R) × List C × Nat)
  | [], _ => .error .traceExhausted
  | op :: rest, contexts =>
    if op.parentOpid = none then
      match op.content with
      | .call (.resolveProperty vid opTypeName property) =>
        if vid = qi.originVid ∧ opTypeName = typeName ∧
            property = propertyName ∧ qi.originCrossingEid = none then
          drainProperty op.opid rest contexts []
        else .error .callMismatch
      | _ => .error .unexpectedTraceOp
    else .error .callMismatch

/-- `TraceReaderAdapter::resolve_neighbors` (`replay.rs` lines 449-478): the
next trace op must be a root `Call(ResolveNeighbors(vid, type_name, eid))`
whose `vid` and `type_name` match and whose `eid` equals the invocation's
crossing Eid. -/
def replayResolveNeighbors (qi : QueryInfoModel) (typeName : String) :
    List (TraceOp V C R) → List C →
    Except ReplayError
      (List (C × List V) × List (TraceOp V C R) × List C × Nat)
  | [], _ => .error .traceExhausted
  | op :: rest, contexts =>
    if op.parentOpid = none then
      match op.content with
      | .call (.resolveNeighbors vid opTypeName eid) =>
        if vid = qi.originVid ∧ opTypeName = typeName ∧
            qi.originCrossingEid = some eid then
          drainNeighbors op.opid rest contexts []
        else .error .callMismatch
      | _ => .error .unexpectedTraceOp
    else .error .callMismatch

/-- `TraceReaderAdapter::resolve_coercion` (`replay.rs` lines 480-509). -/
def replayResolveCoercion (qi : QueryInfoModel) (typeName coerceToType : String) :
    List (TraceOp V C R) → List C →
    Except ReplayError
      (List (C × Bool) × List (TraceOp V C R) × List C × Nat)
  | [], _ => .error .traceExhausted
  | op :: rest, contexts =>
    if op.parentOpid = none then
      match op.content with
      | .call (.resolveCoercion vid fromType toType) =>
        if vid = qi.originVid ∧ fromType = typeName ∧
            toType = coerceToType ∧ qi.originCrossingEid = none then
          drainCoercion op.opid rest contexts []
        else .error .callMismatch
      | _ => .error .unexpectedTraceOp
    else .error .callMismatch

/-! ### The trace recorder, modelled from the spec (§4.4)

When tracing is enabled every outer call emits a root `Call` op; each input
the adapter pulls emits `AdvanceInputIterator` followed by `YieldInto(ctx)`
or `InputIteratorExhausted`; each output yields `YieldFrom(...)`; exhaustion
emits `OutputIteratorExhausted`; neighbor streams are child iterators whose
ops have the outer yield's opid as parent and carry indices from 0.  The
four primitives obey the pairing contract of §4.1 (one output per input, in
order), so a call's segment is determined by the call's input list and the
adapter's per-input answer.  Opids are assigned in emission order; `p` is
the parent opid and `n` the next fresh opid. -/

/-- Modelled from the spec: the recorded segment of one
`resolve_starting_vertices` call body — one `YieldFrom` per produced vertex
then `OutputIteratorExhausted`, all children of the call op `p`. -/
def recordStartingVerticesSegment (p n : Nat) : List V → List (TraceOp V C R)
  | [] => [⟨n, some p, .outputIteratorExhausted⟩]
  | v :: vs =>
    ⟨n, some p, .yieldFrom (.resolveStartingVertices v)⟩ ::
      recordStartingVerticesSegment p (n + 1) vs

/-- Modelled from the spec: the recorded segment of one `resolve_property`
call body over inputs `contexts` with per-context value `f` — for each
input, `AdvanceInputIterator`, `YieldInto`, and the paired `YieldFrom`;
then the exhaustion handshake. -/
def recordPropertySegment (p n : Nat) (f : C → FieldValue) :
    List C → List (TraceOp V C R)
  | [] =>
    [⟨n, some p, .advanceInputIterator⟩,
     ⟨n + 1, some p, .inputIteratorExhausted⟩,
     ⟨n + 2, some p, .outputIteratorExhausted⟩]
  | c :: cs =>
    ⟨n, some p, .advanceInputIterator⟩ ::
      ⟨n + 1, some p, .yieldInto c⟩ ::
      ⟨n + 2, some p, .yieldFrom (.resolveProperty c (f c))⟩ ::
      recordPropertySegment p (n + 3) f cs

/-- Modelled from the spec: the recorded segment of one `resolve_coercion`
call body over inputs `contexts` with per-context decision `f`. -/
def recordCoercionSegment (p n : Nat) (f : C → Bool) :
    List C → List (TraceOp V C R)
  | [] =>
    [⟨n, some p, .advanceInputIterator⟩,
     ⟨n + 1, some p, .inputIteratorExhausted⟩,
     ⟨n + 2, some p, .outputIteratorExhausted⟩]
  | c :: cs =>
    ⟨n, some p, .advanceInputIterator⟩ ::
      ⟨n + 1, some p, .yieldInto c⟩ ::
      ⟨n + 2, some p, .yieldFrom (.resolveCoercion c (f c))⟩ ::
      recordCoercionSegment p (n + 3) f cs

/-- Modelled from the spec: the recorded child iterator of one neighbor
stream — a `ResolveNeighborsInner(index, vertex)` yield per neighbor with
indices counting up from `idx` (0 at the call site), then
`OutputIteratorExhausted`, all children of the outer yield op `p`. -/
def recordNeighborsInnerSegment (p n idx : Nat) : List V → List (TraceOp V C R)
  | [] => [⟨n, some p, .outputIteratorExhausted⟩]
  | v :: vs =>
    ⟨n, some p, .yieldFrom (.resolveNeighborsInner idx v)⟩ ::
      recordNeighborsInnerSegment p (n + 1) (idx + 1) vs

/-- Modelled from the spec: the recorded segment of one `resolve_neighbors`
call body over inputs `contexts` with per-context neighbor list `g` — for
each input, the input handshake, the `ResolveNeighborsOuter` yield, and the
fully drained child iterator; then the exhaustion handshake. -/
def recordNeighborsSegment (p n : Nat) (g : C → List V) :
    List C → List (TraceOp V C R)
  | [] =>
    [⟨n, some p, .advanceInputIterator⟩,
     ⟨n + 1, some p, .inputIteratorExhausted⟩,
     ⟨n + 2, some p, .outputIteratorExhausted⟩]
  | c :: cs =>
    ⟨n, some p, .advanceInputIterator⟩ ::
      ⟨n + 1, some p, .yieldInto c⟩ ::
      ⟨n + 2, some p, .yieldFrom (.resolveNeighborsOuter c)⟩ ::
      (recordNeighborsInnerSegment (n + 2) (n + 3) 0 (g c) ++
        recordNeighborsSegment p (n + 4 + (g c).length) g cs)

/-- Modelled from the spec: a full recorded `resolve_starting_vertices`
call — the root `Call` op followed by its segment. -/
def recordStartingVerticesCall (n vid : Nat) (vs : List V) :
    List (TraceOp V C R) :=
  ⟨n, none, .call (.resolveStartingVertices vid)⟩ ::
    recordStartingVerticesSegment n (n + 1) vs

/-- Modelled from the spec: a full recorded `resolve_property` call. -/
def recordPropertyCall (n vid : Nat) (typeName propertyName : String)
    (f : C → FieldValue) (contexts : List C) : List (TraceOp V C R) :=
  ⟨n, none, .call (.resolveProperty vid typeName propertyName)⟩ ::
    recordPropertySegment n (n + 1) f contexts

/-- Modelled from the spec: a full recorded `resolve_neighbors` call. -/
def recordNeighborsCall (n vid : Nat) (typeName : String) (eid : Nat)
    (g : C → List V) (contexts : List C) : List (TraceOp V C R) :=
  ⟨n, none, .call (.resolveNeighbors vid typeName eid)⟩ ::
    recordNeighborsSegment n (n + 1) g contexts

/-- Modelled from the spec: a full recorded `resolve_coercion` call. -/
def recordCoercionCall (n vid : Nat) (typeName coerceToType : String)
    (f : C → Bool) (contexts : List C) : List (TraceOp V C R) :=
  ⟨n, none, .call (.resolveCoercion vid typeName coerceToType)⟩ ::
    recordCoercionSegment n (n + 1) f contexts

/-- The number of `AdvanceInputIterator` events in a trace — the number of
times the traced adapter pulled its input context iterator. -/
def countAdvance (ops : List (TraceOp V C R)) : Nat :=
  ops.countP fun op =>
    match op.content with
    | .advanceInputIterator => true
    | _ => false

end Replay

/-! ### The interpreter as an interaction strategy, modelled from the spec

`interpret_ir` is not among the sampled sources.  Per the spec it is a
deterministic, single-threaded pipeline that interacts with the adapter only
through the four primitives (§4.1-§4.2), emits result rows lazily, and — for
a fixed IR, arguments and adapter behavior — performs the identical sequence
of calls and emissions (§5, §8 *Determinism*).  We model such an execution
as a decision tree: at each node the engine either finishes, emits a row, or
invokes one primitive on chosen arguments and inputs, continuing as a
function of the adapter's (pairing-contract-respecting) answer. -/

/-- Modelled from the spec: one deterministic interpreter execution
(`interpret_ir` is not among the sampled sources) as an interaction
decision tree over the four adapter primitives and row emission. -/
inductive Strategy (V C R : Type) where
  | done : Strategy V C R
  | emit : R → Strategy V C R → Strategy V C R
  | callStartingVertices : Nat → (List V → Strategy V C R) → Strategy V C R
  | callProperty : Nat → String → String → List C →
      (List (C × FieldValue) → Strategy V C R) → Strategy V C R
  | callNeighbors : Nat → String → Nat → List C →
      (List (C × List V) → Strategy V C R) → Strategy V C R
  | callCoercion : Nat → String → String → List C →
      (List (C × Bool) → Strategy V C R) → Strategy V C R

/-- Modelled from the spec: an adapter's observable behavior per §4.1 — its
answer to each primitive, per input, respecting the pairing contract (one
output per input, in order, no reordering). -/
structure AdapterModel (V C : Type) where
  startingVertices : Nat → List V
  property : Nat → String → String → C → FieldValue
  neighbors : Nat → String → Nat → C → List V
  coercion : Nat → String → String → C → Bool

section Run

variable {V C R : Type} [DecidableEq V] [DecidableEq C] [DecidableEq R]

/-- Modelled from the spec: running a query execution strategy against an
adapter produces the row sequence `R` of the run. -/
def runStrategy (A : AdapterModel V C) : Strategy V C R → List R
  | .done => []
  | .emit r k => r :: runStrategy A k
  | .callStartingVertices vid k => runStrategy A (k (A.startingVertices vid))
  | .callProperty vid tn pn ins k =>
    runStrategy A (k (ins.map fun c => (c, A.property vid tn pn c)))
  | .callNeighbors vid tn eid ins k =>
    runStrategy A (k (ins.map fun c => (c, A.neighbors vid tn eid c)))
  | .callCoercion vid tn ct ins k =>
    runStrategy A (k (ins.map fun c => (c, A.coercion vid tn ct c)))

/-- Modelled from the spec: the trace `T` of §4.4 recorded while running a
strategy against an adapter — each adapter call contributes its recorded
call ops and each produced row a `ProduceQueryResult` op, in emission order,
with opids assigned consecutively from `n`. -/
def recordStrategy (A : AdapterModel V C) : Nat → Strategy V C R → List (TraceOp V C R)
  | _, .done => []
  | n, .emit r k => ⟨n, none, .produceQueryResult r⟩ :: recordStrategy A (n + 1) k
  | n, .callStartingVertices vid k =>
    let seg : List (TraceOp V C R) :=
      recordStartingVerticesCall n vid (A.startingVertices vid)
    seg ++ recordStrategy A (n + seg.length) (k (A.startingVertices vid))
  | n, .callProperty vid tn pn ins k =>
    let seg : List (TraceOp V C R) :=
      recordPropertyCall n vid tn pn (A.property vid tn pn) ins
    seg ++ recordStrategy A (n + seg.length)
      (k (ins.map fun c => (c, A.property vid tn pn c)))
  | n, .callNeighbors vid tn eid ins k =>
    let seg : List (TraceOp V C R) :=
      recordNeighborsCall n vid tn eid (A.neighbors vid tn eid) ins
    seg ++ recordStrategy A (n + seg.length)
      (k (ins.map fun c => (c, A.neighbors vid tn eid c)))
  | n, .callCoercion vid tn ct ins k =>
    let seg : List (TraceOp V C R) :=
      recordCoercionCall n vid tn ct (A.coercion vid tn ct) ins
    seg ++ recordStrategy A (n + seg.length)
      (k (ins.map fun c => (c, A.coercion vid tn ct c)))

/-- `assert_interpreted_results` (`replay.rs` lines 513-569), with the
engine modelled by the same strategy that recorded the trace: interpret the
query with the `TraceReaderAdapter` over the trace, checking each produced
row against the trace's next `ProduceQueryResult` op.  Returns the rows the
replay run produced, the unconsumed suffix of the trace, and the total
number of input-iterator pulls the replay adapter performed. -/
def replayStrategy :
    Strategy V C R → List (TraceOp V C R) →
    Except ReplayError (List R × List (TraceOp V C R) × Nat)
  | .done, ops => .ok ([], ops, 0)
  | .emit _ _, [] => .error .traceExhausted
  | .emit r k, op :: rest =>
    match op.content with
    | .produceQueryResult row =>
      if row = r then
        (replayStrategy k rest).map fun (rows, remaining, pulls) =>
          (r :: rows, remaining, pulls)
      else .error .resultRowMismatch
    | _ => .error .unexpectedTraceOp
  | .callStartingVertices vid k, ops =>
    match replayResolveStartingVertices ⟨vid, none⟩ ops with
    | .ok (vs, remaining) => replayStrategy (k vs) remaining
    | .error e => .error e
  | .callProperty vid tn pn ins k, ops =>
    match replayResolveProperty ⟨vid, none⟩ tn pn ops ins with
    | .ok (outs, remaining, _, pulls) =>
      (replayStrategy (k outs) remaining).map fun (rows, remaining2, pulls2) =>
        (rows, remaining2, pulls + pulls2)
    | .error e => .error e
  | .callNeighbors vid tn eid ins k, ops =>
    match replayResolveNeighbors ⟨vid, some eid⟩ tn ops ins with
    | .ok (outs, remaining, _, pulls) =>
      (replayStrategy (k outs) remaining).map fun (rows, remaining2, pulls2) =>
        (rows, remaining2, pulls + pulls2)
    | .error e => .error e
  | .callCoercion vid tn ct ins k, ops =>
    match replayResolveCoercion ⟨vid, none⟩ tn ct ops ins with
    | .ok (outs, remaining, _, pulls) =>
      (replayStrategy (k outs) remaining).map fun (rows, remaining2, pulls2) =>
        (rows, remaining2, pulls + pulls2)
    | .error e => .error e

end Run

/-! ## Theorems -/

mutual

theorem fieldOfTransparent_transparentOfField :
    ∀ (v : FieldValue), fieldOfTransparent (transparentOfField v) = v
  | .null => rfl
  | .int64 _ => rfl
  | .uint64 _ => rfl
  | .float64 _ => rfl
  | .string _ => rfl
  | .boolean _ => rfl
  | .dateTimeUtc _ => rfl
  | .enum _ => rfl
  | .list x => by
    simp only [transparentOfField, fieldOfTransparent,
      fieldOfTransparentList_transparentOfFieldList x]

theorem fieldOfTransparentList_transparentOfFieldList :
    ∀ (l : List FieldValue), fieldOfTransparentList (transparentOfFieldList l) = l
  | [] => rfl
  | v :: vs => by
    simp only [transparentOfFieldList, fieldOfTransparentList,
      fieldOfTransparent_transparentOfField v,
      fieldOfTransparentList_transparentOfFieldList vs]

end

mutual

theorem transparentOfField_fieldOfTransparent :
    ∀ (t : TransparentValue), transparentOfField (fieldOfTransparent t) = t
  | .null => rfl
  | .int64 _ => rfl
  | .uint64 _ => rfl
  | .float64 _ => rfl
  | .string _ => rfl
  | .boolean _ => rfl
  | .dateTimeUtc _ => rfl
  | .enum _ => rfl
  | .list x => by
    simp only [fieldOfTransparent, transparentOfField,
      transparentOfFieldList_fieldOfTransparentList x]

theorem transparentOfFieldList_fieldOfTransparentList :
    ∀ (l : List TransparentValue),
      transparentOfFieldList (fieldOfTransparentList l) = l
  | [] => rfl
  | v :: vs => by
    simp only [fieldOfTransparentList, transparentOfFieldList,
      transparentOfField_fieldOfTransparent v,
      transparentOfFieldList_fieldOfTransparentList vs]

end

/-- C10: converting any `FieldValue` to `TransparentValue` and back, and any
`TransparentValue` to `FieldValue` and back, is the identity — the two `From`
conversions are mutually inverse. -/
theorem field_transparent_roundtrip :
    (∀ (v : FieldValue), fieldOfTransparent (transparentOfField v) = v) ∧
    (∀ (t : TransparentValue), transparentOfField (fieldOfTransparent t) = t) :=
  ⟨fieldOfTransparent_transparentOfField, transparentOfField_fieldOfTransparent⟩

/-- C8: `FieldValue` equality of two values with differing discriminants is
`false` — in particular an `Int64` never equals a `Uint64` or `Float64`, even
when numerically equal. -/
theorem eqFn_false_of_discriminant_ne :
    ∀ (v w : FieldValue), v.discriminant ≠ w.discriminant →
      FieldValue.eqFn v w = false := by
  intro v w h
  cases v <;> cases w <;>
    simp_all [FieldValue.eqFn, FieldValue.discriminant]

/-- Witness for C8 at concrete inputs: `Int64(1)` and `Uint64(1)` have
different discriminants and compare unequal; so do `Int64(1)` and
`Float64(1)`. -/
theorem eqFn_false_of_discriminant_ne_witness :
    FieldValue.eqFn (.int64 1) (.uint64 1) = false ∧
    FieldValue.eqFn (.int64 1) (.float64 1) = false :=
  ⟨eqFn_false_of_discriminant_ne (.int64 1) (.uint64 1) (by decide),
   eqFn_false_of_discriminant_ne (.int64 1) (.float64 1) (by decide)⟩

/-- C9: the JSON-number conversion prefers the exact integer representations
in the order `Int64`, then `Uint64`, then `Float64`: it yields `Int64(i)`
whenever the number is representable as an `i64` (its `as_i64` succeeds),
otherwise `Uint64(u)` whenever representable as a `u64`, and otherwise
`Float64` of the stored double; the `unreachable!()` arm is never taken. -/
theorem convertNumber_prefers_i64_u64_f64 :
    ∀ (n : Number),
      (∀ i, n.asI64 = some i → convertNumberToFieldValue n = .ok (.int64 i)) ∧
      (n.asI64 = none →
        ∀ u, n.asU64 = some u → convertNumberToFieldValue n = .ok (.uint64 u)) ∧
      (n.asI64 = none → n.asU64 = none →
        ∃ f, n.asF64 = some f ∧ convertNumberToFieldValue n = .ok (.float64 f)) := by
  intro n
  refine ⟨fun i hi => ?_, fun h0 u hu => ?_, fun h0 h1 => ?_⟩
  · simp [convertNumberToFieldValue, hi]
  · simp [convertNumberToFieldValue, h0, hu]
  · cases n with
    | posInt u => simp [Number.asU64] at h1
    | negInt i => simp [Number.asI64] at h0
    | float f => exact ⟨f, rfl, by simp [convertNumberToFieldValue, h0, h1, Number.asF64]⟩

/-- Witness for C9 at concrete inputs: `3` converts to `Int64(3)`;
`2^63` (too large for `i64`) converts to `Uint64(2^63)`; the double `7.0`
converts to `Float64(7)`. -/
theorem convertNumber_prefers_i64_u64_f64_witness :
    convertNumberToFieldValue (.posInt 3) = .ok (.int64 3) ∧
    convertNumberToFieldValue (.posInt (2 ^ 63)) = .ok (.uint64 (2 ^ 63)) ∧
    convertNumberToFieldValue (.float 7) = .ok (.float64 7) := by
  refine ⟨(convertNumber_prefers_i64_u64_f64 (.posInt 3)).1 3 (by decide),
    (convertNumber_prefers_i64_u64_f64 (.posInt (2 ^ 63))).2.1 (by decide) _ (by decide),
    ?_⟩
  obtain ⟨f, hf, hc⟩ :=
    (convertNumber_prefers_i64_u64_f64 (.float 7)).2.2 rfl rfl
  have : f = 7 := by simpa [Number.asF64] using hf.symm
  simpa [this] using hc

/-- C2 (code bug): `static_field_value` never consults which field a filter
constrains.  On a vertex whose only filter is `Equals` on field `"g"` with
variable RHS `x = 5`, querying the unconstrained field `"f"` still returns
`Single(5)`: the candidate is built from a filter on a different field of the
same vertex, contradicting the spec's hint-soundness reading of
`static_field_value(f)`. -/
theorem staticFieldValue_ignores_field_name :
    staticFieldValue
        ⟨1, "T", none, [.equals ⟨"g"⟩ (.Variable "x")]⟩
        (fun name => if name = "x" then .int64 5 else .null)
        "f" =
      .ok (some (.single (.int64 5))) := rfl

/-- C3: whenever a vertex's filter list contains both an `IsNull` and an
`IsNotNull` operation, `static_field_value` returns `Some(Impossible)`, for
every field name queried and all query arguments. -/
theorem staticFieldValue_impossible_of_isNull_isNotNull :
    ∀ (vertex : IRVertex) (arguments : String → FieldValue) (fieldName : String),
      vertex.filters.any Operation.matchesIsNull = true →
      vertex.filters.any Operation.matchesIsNotNull = true →
      staticFieldValue vertex arguments fieldName = .ok (some .impossible) := by
  intro vertex arguments fieldName h1 h2
  simp [staticFieldValue, h1, h2]

/-- Witness for C3 at a concrete vertex carrying both an `is_null` and an
`is_not_null` filter on its fields. -/
theorem staticFieldValue_impossible_witness :
    ([.isNull ⟨"f"⟩, .isNotNull ⟨"f"⟩] :
        List (Operation LocalField Argument)).any Operation.matchesIsNull = true ∧
    ([.isNull ⟨"f"⟩, .isNotNull ⟨"f"⟩] :
        List (Operation LocalField Argument)).any Operation.matchesIsNotNull = true ∧
    staticFieldValue ⟨0, "T", none, [.isNull ⟨"f"⟩, .isNotNull ⟨"f"⟩]⟩
        (fun _ => .null) "f" = .ok (some .impossible) :=
  ⟨rfl, rfl,
    staticFieldValue_impossible_of_isNull_isNotNull
      ⟨0, "T", none, [.isNull ⟨"f"⟩, .isNotNull ⟨"f"⟩]⟩ (fun _ => .null) "f" rfl rfl⟩

theorem neighboringDynamicFieldValueStep_vid_le
    (vertexVid startingVertex : Nat)
    (filterOperation : Operation LocalField Argument)
    (d : DynamicallyResolvedValue)
    (h : neighboringDynamicFieldValueStep vertexVid startingVertex filterOperation
        = some d) :
    d.contextField.vertexId ≤ startingVertex := by
  cases filterOperation with
  | equals l r =>
    cases r with
    | Variable _ => simp [neighboringDynamicFieldValueStep] at h
    | Tag fr =>
      cases fr with
      | contextField cf =>
        by_cases hle : cf.vertexId ≤ startingVertex
        · simp [neighboringDynamicFieldValueStep, hle] at h
          subst h
          exact hle
        · simp [neighboringDynamicFieldValueStep, hle] at h
      | foldSpecificField => simp [neighboringDynamicFieldValueStep] at h
  | oneOf l r =>
    cases r with
    | Variable _ => simp [neighboringDynamicFieldValueStep] at h
    | Tag fr =>
      cases fr with
      | contextField cf =>
        by_cases hle : cf.vertexId ≤ startingVertex
        · simp [neighboringDynamicFieldValueStep, hle] at h
          subst h
          exact hle
        · simp [neighboringDynamicFieldValueStep, hle] at h
      | foldSpecificField => simp [neighboringDynamicFieldValueStep] at h
  | isNull l => simp [neighboringDynamicFieldValueStep] at h
  | isNotNull l => simp [neighboringDynamicFieldValueStep] at h
  | notEquals l r => simp [neighboringDynamicFieldValueStep] at h
  | lessThan l r => simp [neighboringDynamicFieldValueStep] at h
  | lessThanOrEqual l r => simp [neighboringDynamicFieldValueStep] at h
  | greaterThan l r => simp [neighboringDynamicFieldValueStep] at h
  | greaterThanOrEqual l r => simp [neighboringDynamicFieldValueStep] at h
  | contains l r => simp [neighboringDynamicFieldValueStep] at h
  | notContains l r => simp [neighboringDynamicFieldValueStep] at h
  | hasPrefixOp l r => simp [neighboringDynamicFieldValueStep] at h
  | hasSuffix l r => simp [neighboringDynamicFieldValueStep] at h
  | hasSubstring l r => simp [neighboringDynamicFieldValueStep] at h
  | notOneOf l r => simp [neighboringDynamicFieldValueStep] at h
  | regex l r => simp [neighboringDynamicFieldValueStep] at h
  | notRegex l r => simp [neighboringDynamicFieldValueStep] at h

/-- C4: in a neighboring scope, `dynamic_field_value` yields a handle only
for a filter whose `@tag` context field comes from a Vid at or before the
scope's starting Vid: any handle it returns satisfies
`contextField.vertexId ≤ startingVertex` and stems from one of the vertex's
filters via the loop body (which only accepts `Equals`/`OneOf` filters with
a `@tag` RHS satisfying that bound), so a filter whose tag's source vertex
id exceeds the starting Vid never yields a handle. -/
theorem neighboringDynamicFieldValue_vid_le :
    ∀ (vertex : IRVertex) (startingVertex : Nat) (fieldName : String)
      (d : DynamicallyResolvedValue),
      neighboringDynamicFieldValue vertex startingVertex fieldName = some d →
      d.contextField.vertexId ≤ startingVertex ∧
        ∃ op ∈ vertex.filters,
          neighboringDynamicFieldValueStep vertex.vid startingVertex op = some d := by
  intro vertex startingVertex fieldName d h
  unfold neighboringDynamicFieldValue at h
  obtain ⟨op, hmem, hstep⟩ := List.exists_of_findSome?_eq_some h
  exact ⟨neighboringDynamicFieldValueStep_vid_le _ _ _ _ hstep, op, hmem, hstep⟩

/-- Witness for C4 at a concrete vertex: a filter tagged from Vid 2 within a
scope starting at Vid 2 yields a handle, and the theorem bounds its source
Vid and exhibits the originating filter. -/
theorem neighboringDynamicFieldValue_vid_le_witness :
    neighboringDynamicFieldValue
        ⟨3, "T", none, [.equals ⟨"t"⟩ (.Tag (.contextField ⟨2, "v", true⟩))]⟩
        2 "f" = some ⟨3, ⟨2, "v", true⟩, false⟩ ∧
    ((DynamicallyResolvedValue.mk 3 ⟨2, "v", true⟩ false).contextField.vertexId ≤ 2 ∧
      ∃ op ∈ (IRVertex.mk 3 "T" none
          [.equals ⟨"t"⟩ (.Tag (.contextField ⟨2, "v", true⟩))]).filters,
        neighboringDynamicFieldValueStep 3 2 op =
          some ⟨3, ⟨2, "v", true⟩, false⟩) :=
  ⟨rfl,
    neighboringDynamicFieldValue_vid_le
      ⟨3, "T", none, [.equals ⟨"t"⟩ (.Tag (.contextField ⟨2, "v", true⟩))]⟩
      2 "f" ⟨3, ⟨2, "v", true⟩, false⟩ rfl⟩

/-- C5: when `resolve` obtains `Null` for the tagged field and the tag's
source vertex binding in the context is `None` (the `@tag` sits inside an
`@optional` scope that did not exist for the row), it yields
`CandidateValue::All` — in both single-valued and `is_multiple` modes — so
filters using the tag pass vacuously. -/
theorem resolve_absent_optional_tag_yields_all :
    ∀ {V : Type} (d : DynamicallyResolvedValue)
      (computeContextField : DataContext V → FieldValue) (ctx : DataContext V),
      computeContextField ctx = .null →
      ctx.tokens d.contextField.vertexId = none →
      d.resolve computeContextField [ctx] = .ok [(ctx, .all)] := by
  intro V d computeContextField ctx hnull htok
  cases hm : d.isMultiple <;>
    simp [DynamicallyResolvedValue.resolve, hnull, resolveCandidateValue, hm, htok]

/-- Witness for C5 at a concrete context with no binding for the tag's
source vertex, in both modes. -/
theorem resolve_absent_optional_tag_yields_all_witness :
    (DynamicallyResolvedValue.mk 0 ⟨1, "x", true⟩ false).resolve
        (fun (_ : DataContext Nat) => .null) [⟨fun _ => none⟩] =
      .ok [(⟨fun _ => none⟩, .all)] ∧
    (DynamicallyResolvedValue.mk 0 ⟨1, "x", true⟩ true).resolve
        (fun (_ : DataContext Nat) => .null) [⟨fun _ => none⟩] =
      .ok [(⟨fun _ => none⟩, .all)] :=
  ⟨resolve_absent_optional_tag_yields_all ⟨0, ⟨1, "x", true⟩, false⟩
      (fun _ => .null) ⟨fun _ => none⟩ rfl rfl,
   resolve_absent_optional_tag_yields_all ⟨0, ⟨1, "x", true⟩, true⟩
      (fun _ => .null) ⟨fun _ => none⟩ rfl rfl⟩

/-- C6: when `resolve` obtains `Null` for the tagged field while the tag's
source vertex binding is present (a nullable field resolved to null), it
yields `Single(Null)` in single-valued mode and `Impossible` in
`is_multiple` mode. -/
theorem resolve_null_with_present_binding :
    ∀ {V : Type} (vid : Nat) (cf : ContextField)
      (computeContextField : DataContext V → FieldValue) (ctx : DataContext V)
      (t : V),
      computeContextField ctx = .null →
      ctx.tokens cf.vertexId = some t →
      (DynamicallyResolvedValue.mk vid cf false).resolve computeContextField [ctx] =
          .ok [(ctx, .single .null)] ∧
      (DynamicallyResolvedValue.mk vid cf true).resolve computeContextField [ctx] =
          .ok [(ctx, .impossible)] := by
  intro V vid cf computeContextField ctx t hnull htok
  constructor <;>
    simp [DynamicallyResolvedValue.resolve, hnull, resolveCandidateValue, htok]

/-- Witness for C6 at a concrete context binding vertex 1 to a vertex
handle. -/
theorem resolve_null_with_present_binding_witness :
    (DynamicallyResolvedValue.mk 0 ⟨1, "x", true⟩ false).resolve
        (fun (_ : DataContext Nat) => .null) [⟨fun _ => some 7⟩] =
      .ok [(⟨fun _ => some 7⟩, .single .null)] ∧
    (DynamicallyResolvedValue.mk 0 ⟨1, "x", true⟩ true).resolve
        (fun (_ : DataContext Nat) => .null) [⟨fun _ => some 7⟩] =
      .ok [(⟨fun _ => some 7⟩, .impossible)] :=
  resolve_null_with_present_binding 0 ⟨1, "x", true⟩
    (fun _ => .null) ⟨fun _ => some 7⟩ 7 rfl rfl

section ReplayTheorems

variable {V C R : Type} [DecidableEq V] [DecidableEq C] [DecidableEq R]

theorem drainStartingVertices_record (p : Nat) :
    ∀ (n : Nat) (vs : List V) (rest : List (TraceOp V C R)),
      drainStartingVertices p (recordStartingVerticesSegment p n vs ++ rest) =
        .ok (vs, rest) := by
  intro n vs rest
  induction vs generalizing n with
  | nil => simp [recordStartingVerticesSegment, drainStartingVertices]
  | cons v vs ih =>
    simp [recordStartingVerticesSegment, drainStartingVertices, ih (n + 1),
      Except.map]

theorem drainProperty_record (p : Nat) (f : C → FieldValue) :
    ∀ (n : Nat) (ins : List C) (rest : List (TraceOp V C R)),
      drainProperty p (recordPropertySegment p n f ins ++ rest) ins [] =
        .ok (ins.map fun c => (c, f c), rest, ([] : List C), ins.length + 1) := by
  intro n ins rest
  induction ins generalizing n with
  | nil =>
    simp [recordPropertySegment, drainProperty, drainPropertyAdvance, Except.map]
  | cons c cs ih =>
    simp [recordPropertySegment, drainProperty, drainPropertyAdvance,
      ih (n + 3), Except.map]

theorem drainCoercion_record (p : Nat) (f : C → Bool) :
    ∀ (n : Nat) (ins : List C) (rest : List (TraceOp V C R)),
      drainCoercion p (recordCoercionSegment p n f ins ++ rest) ins [] =
        .ok (ins.map fun c => (c, f c), rest, ([] : List C), ins.length + 1) := by
  intro n ins rest
  induction ins generalizing n with
  | nil =>
    simp [recordCoercionSegment, drainCoercion, drainCoercionAdvance, Except.map]
  | cons c cs ih =>
    simp [recordCoercionSegment, drainCoercion, drainCoercionAdvance,
      ih (n + 3), Except.map]

theorem drainNeighborsResume_record (p innerParent : Nat) (c : C) :
    ∀ (vs : List V) (n idx : Nat) (acc : List V) (ops : List (TraceOp V C R))
      (contexts batch : List C),
      drainNeighborsResume p innerParent idx
          (recordNeighborsInnerSegment innerParent n idx vs ++ ops)
          contexts batch c acc =
        (drainNeighbors p ops contexts batch).map
          fun (outs, remaining, leftover, pulls) =>
            ((c, acc ++ vs) :: outs, remaining, leftover, pulls) := by
  intro vs
  induction vs with
  | nil =>
    intro n idx acc ops contexts batch
    simp [recordNeighborsInnerSegment, drainNeighborsResume]
  | cons v vs ih =>
    intro n idx acc ops contexts batch
    simp only [recordNeighborsInnerSegment, List.cons_append]
    rw [drainNeighborsResume]
    simp [ih (n + 1) (idx + 1) (acc ++ [v]) ops contexts batch]

theorem drainNeighbors_record (p : Nat) (g : C → List V) :
    ∀ (n : Nat) (ins : List C) (rest : List (TraceOp V C R)),
      drainNeighbors p (recordNeighborsSegment p n g ins ++ rest) ins [] =
        .ok (ins.map fun c => (c, g c), rest, ([] : List C), ins.length + 1) := by
  intro n ins rest
  induction ins generalizing n with
  | nil =>
    simp [recordNeighborsSegment, drainNeighbors, drainNeighborsAdvance,
      Except.map]
  | cons c cs ih =>
    simp [recordNeighborsSegment, drainNeighbors, drainNeighborsAdvance,
      List.append_assoc, drainNeighborsResume_record p (n + 2) c (g c) (n + 3) 0 [],
      ih (n + 4 + (g c).length), Except.map]

theorem replayResolveStartingVertices_record
    (n vid : Nat) (vs : List V) (rest : List (TraceOp V C R)) :
    replayResolveStartingVertices ⟨vid, none⟩
        (recordStartingVerticesCall n vid vs ++ rest) = .ok (vs, rest) := by
  simp [recordStartingVerticesCall, replayResolveStartingVertices,
    drainStartingVertices_record n (n + 1) vs rest]

theorem replayResolveProperty_record
    (n vid : Nat) (typeName propertyName : String) (f : C → FieldValue)
    (ins : List C) (rest : List (TraceOp V C R)) :
    replayResolveProperty ⟨vid, none⟩ typeName propertyName
        (recordPropertyCall n vid typeName propertyName f ins ++ rest) ins =
      .ok (ins.map fun c => (c, f c), rest, ([] : List C), ins.length + 1) := by
  simp [recordPropertyCall, replayResolveProperty,
    drainProperty_record n f (n + 1) ins rest]

theorem replayResolveNeighbors_record
    (n vid : Nat) (typeName : String) (eid : Nat) (g : C → List V)
    (ins : List C) (rest : List (TraceOp V C R)) :
    replayResolveNeighbors ⟨vid, some eid⟩ typeName
        (recordNeighborsCall n vid typeName eid g ins ++ rest) ins =
      .ok (ins.map fun c => (c, g c), rest, ([] : List C), ins.length + 1) := by
  simp [recordNeighborsCall, replayResolveNeighbors,
    drainNeighbors_record n g (n + 1) ins rest]

theorem replayResolveCoercion_record
    (n vid : Nat) (typeName coerceToType : String) (f : C → Bool)
    (ins : List C) (rest : List (TraceOp V C R)) :
    replayResolveCoercion ⟨vid, none⟩ typeName coerceToType
        (recordCoercionCall n vid typeName coerceToType f ins ++ rest) ins =
      .ok (ins.map fun c => (c, f c), rest, ([] : List C), ins.length + 1) := by
  simp [recordCoercionCall, replayResolveCoercion,
    drainCoercion_record n f (n + 1) ins rest]

theorem countAdvance_nil :
    countAdvance ([] : List (TraceOp V C R)) = 0 := rfl

theorem countAdvance_append (xs ys : List (TraceOp V C R)) :
    countAdvance (xs ++ ys) = countAdvance xs + countAdvance ys := by
  simp [countAdvance, List.countP_append]

theorem countAdvance_recordStartingVerticesSegment (p : Nat) :
    ∀ (vs : List V) (n : Nat),
      countAdvance (recordStartingVerticesSegment p n vs : List (TraceOp V C R)) = 0 := by
  intro vs
  induction vs with
  | nil => intro n; simp [recordStartingVerticesSegment, countAdvance]
  | cons v vs ih =>
    intro n
    simp [recordStartingVerticesSegment, countAdvance, List.countP_cons] at ih ⊢
    exact ih (n + 1)

theorem countAdvance_recordPropertySegment (p : Nat) (f : C → FieldValue) :
    ∀ (ins : List C) (n : Nat),
      countAdvance (recordPropertySegment p n f ins : List (TraceOp V C R)) =
        ins.length + 1 := by
  intro ins
  induction ins with
  | nil => intro n; simp [recordPropertySegment, countAdvance]
  | cons c cs ih =>
    intro n
    simp [recordPropertySegment, countAdvance, List.countP_cons] at ih ⊢
    simp [ih (n + 3)]

theorem countAdvance_recordCoercionSegment (p : Nat) (f : C → Bool) :
    ∀ (ins : List C) (n : Nat),
      countAdvance (recordCoercionSegment p n f ins : List (TraceOp V C R)) =
        ins.length + 1 := by
  intro ins
  induction ins with
  | nil => intro n; simp [recordCoercionSegment, countAdvance]
  | cons c cs ih =>
    intro n
    simp [recordCoercionSegment, countAdvance, List.countP_cons] at ih ⊢
    simp [ih (n + 3)]

theorem countAdvance_recordNeighborsInnerSegment (p : Nat) :
    ∀ (vs : List V) (n idx : Nat),
      countAdvance (recordNeighborsInnerSegment p n idx vs : List (TraceOp V C R)) = 0 := by
  intro vs
  induction vs with
  | nil => intro n idx; simp [recordNeighborsInnerSegment, countAdvance]
  | cons v vs ih =>
    intro n idx
    simp [recordNeighborsInnerSegment, countAdvance, List.countP_cons] at ih ⊢
    exact ih (n + 1) (idx + 1)

theorem countAdvance_recordNeighborsSegment (p : Nat) (g : C → List V) :
    ∀ (ins : List C) (n : Nat),
      countAdvance (recordNeighborsSegment p n g ins : List (TraceOp V C R)) =
        ins.length + 1 := by
  intro ins
  induction ins with
  | nil => intro n; simp [recordNeighborsSegment, countAdvance]
  | cons c cs ih =>
    intro n
    have h0 := countAdvance_recordNeighborsInnerSegment (V := V) (C := C) (R := R)
      (n + 2) (g c) (n + 3) 0
    have h1 := countAdvance_append
      (recordNeighborsInnerSegment (n + 2) (n + 3) 0 (g c) : List (TraceOp V C R))
      (recordNeighborsSegment p (n + 4 + (g c).length) g cs)
    simp [recordNeighborsSegment, countAdvance, List.countP_cons] at ih h0 h1 ⊢
    simp [ih (n + 4 + (g c).length)]
    exact h0

theorem countAdvance_recordStartingVerticesCall (n vid : Nat) (vs : List V) :
    countAdvance (recordStartingVerticesCall n vid vs : List (TraceOp V C R)) = 0 := by
  have h := countAdvance_recordStartingVerticesSegment (V := V) (C := C) (R := R)
    n vs (n + 1)
  simp [recordStartingVerticesCall, countAdvance, List.countP_cons] at h ⊢
  exact h

theorem countAdvance_recordPropertyCall
    (n vid : Nat) (tn pn : String) (f : C → FieldValue) (ins : List C) :
    countAdvance (recordPropertyCall n vid tn pn f ins : List (TraceOp V C R)) =
      ins.length + 1 := by
  have h := countAdvance_recordPropertySegment (V := V) (R := R) n f ins (n + 1)
  simp [recordPropertyCall, countAdvance, List.countP_cons] at h ⊢
  exact h

theorem countAdvance_recordNeighborsCall
    (n vid : Nat) (tn : String) (eid : Nat) (g : C → List V) (ins : List C) :
    countAdvance (recordNeighborsCall n vid tn eid g ins : List (TraceOp V C R)) =
      ins.length + 1 := by
  have h := countAdvance_recordNeighborsSegment (R := R) n g ins (n + 1)
  simp [recordNeighborsCall, countAdvance, List.countP_cons] at h ⊢
  exact h

theorem countAdvance_recordCoercionCall
    (n vid : Nat) (tn ct : String) (f : C → Bool) (ins : List C) :
    countAdvance (recordCoercionCall n vid tn ct f ins : List (TraceOp V C R)) =
      ins.length + 1 := by
  have h := countAdvance_recordCoercionSegment (V := V) (R := R) n f ins (n + 1)
  simp [recordCoercionCall, countAdvance, List.countP_cons] at h ⊢
  exact h

/-- C7: replaying a self-consistent trace — one recorded from an actual
adapter call under the spec's recorder — never trips any of the replay
adapter's assertions: the root `Call` op has no parent and matches the
invoked primitive, its arguments and the query origin; every context the
engine yields in matches the recorded `YieldInto` context; neighbor indices
are contiguous from 0; and the replayed call reproduces exactly the recorded
outputs, consuming one input pull per recorded `AdvanceInputIterator`. -/
theorem replay_recorded_call_ok :
    ∀ (n vid eid : Nat) (typeName propertyName coerceToType : String)
      (vs : List V) (ins : List C) (f : C → FieldValue) (g : C → List V)
      (b : C → Bool) (rest : List (TraceOp V C R)),
      replayResolveStartingVertices ⟨vid, none⟩
          (recordStartingVerticesCall n vid vs ++ rest) = .ok (vs, rest) ∧
      replayResolveProperty ⟨vid, none⟩ typeName propertyName
          (recordPropertyCall n vid typeName propertyName f ins ++ rest) ins =
        .ok (ins.map fun c => (c, f c), rest, ([] : List C), ins.length + 1) ∧
      replayResolveNeighbors ⟨vid, some eid⟩ typeName
          (recordNeighborsCall n vid typeName eid g ins ++ rest) ins =
        .ok (ins.map fun c => (c, g c), rest, ([] : List C), ins.length + 1) ∧
      replayResolveCoercion ⟨vid, none⟩ typeName coerceToType
          (recordCoercionCall n vid typeName coerceToType b ins ++ rest) ins =
        .ok (ins.map fun c => (c, b c), rest, ([] : List C), ins.length + 1) :=
  fun n vid eid typeName propertyName coerceToType vs ins f g b rest =>
    ⟨replayResolveStartingVertices_record n vid vs rest,
     replayResolveProperty_record n vid typeName propertyName f ins rest,
     replayResolveNeighbors_record n vid typeName eid g ins rest,
     replayResolveCoercion_record n vid typeName coerceToType b ins rest⟩

theorem replayStrategy_record (A : AdapterModel V C) :
    ∀ (s : Strategy V C R) (n : Nat) (rest : List (TraceOp V C R)),
      replayStrategy s (recordStrategy A n s ++ rest) =
        .ok (runStrategy A s, rest, countAdvance (recordStrategy A n s)) := by
  intro s
  induction s with
  | done =>
    intro n rest
    simp [recordStrategy, replayStrategy, runStrategy, countAdvance]
  | emit r k ih =>
    intro n rest
    simp [recordStrategy, replayStrategy, runStrategy, ih (n + 1) rest,
      Except.map, countAdvance, List.countP_cons]
  | callStartingVertices vid k ih =>
    intro n rest
    rw [recordStrategy]
    simp only [List.append_assoc]
    rw [replayStrategy]
    rw [replayResolveStartingVertices_record]
    simp [runStrategy, ih (A.startingVertices vid), countAdvance_append,
      countAdvance_recordStartingVerticesCall]
  | callProperty vid tn pn ins k ih =>
    intro n rest
    rw [recordStrategy]
    simp only [List.append_assoc]
    rw [replayStrategy]
    rw [replayResolveProperty_record]
    simp [runStrategy, ih (ins.map fun c => (c, A.property vid tn pn c)),
      Except.map, countAdvance_append, countAdvance_recordPropertyCall,
      Nat.add_comm]
  | callNeighbors vid tn eid ins k ih =>
    intro n rest
    rw [recordStrategy]
    simp only [List.append_assoc]
    rw [replayStrategy]
    rw [replayResolveNeighbors_record]
    simp [runStrategy, ih (ins.map fun c => (c, A.neighbors vid tn eid c)),
      Except.map, countAdvance_append, countAdvance_recordNeighborsCall,
      Nat.add_comm]
  | callCoercion vid tn ct ins k ih =>
    intro n rest
    rw [recordStrategy]
    simp only [List.append_assoc]
    rw [replayStrategy]
    rw [replayResolveCoercion_record]
    simp [runStrategy, ih (ins.map fun c => (c, A.coercion vid tn ct c)),
      Except.map, countAdvance_append, countAdvance_recordCoercionCall,
      Nat.add_comm]

/-- C1: for every query execution that records a trace `T` while producing
the row sequence `R` (modelled by running an interaction strategy against an
adapter under the spec's recorder), interpreting the same strategy with the
replay adapter constructed from `T` succeeds and produces exactly the row
sequence `R`, consuming the whole trace; and the replay adapter's total
input consumption equals the number of `AdvanceInputIterator` events of
`T`. -/
theorem replay_reproduces_recorded_run :
    ∀ (A : AdapterModel V C) (s : Strategy V C R) (n : Nat),
      replayStrategy s (recordStrategy A n s) =
        .ok (runStrategy A s, [], countAdvance (recordStrategy A n s)) := by
  intro A s n
  have h := replayStrategy_record A s n []
  simpa using h

end ReplayTheorems

end Trustfall
